import Mathlib

/-!
Verification development for the cw-ndfd-xml forecast pipeline.

The Python sources under src/cw_ndfd_xml are shallowly embedded:

* dwml.py      : document model, positional value/period zipping, lookup by name
* forecast.py  : aggregation primitive, daily-low reconciliation, weather phrase
                 formatting, most-frequent reduction, hourly cleanup pass

Modelling conventions:

* Python floats are embedded as normalized fractions (PyRat).  The float
  operations used by the code (halving, averaging, rounding to a fixed number
  of decimals, unit conversion) are exact at the precision the program prints,
  so the rational semantics agrees with the float semantics on the values the
  claims are about; divergence is possible only in binary-representation noise
  far below the rounded output precision.
* Python datetimes are embedded by the strftime projections the code reads
  from them: a calendar-date string and a time-of-day string.  The code never
  uses any other aspect of a datetime except ordering of time strings, and the
  zero-padded formats make lexicographic string order agree with the
  chronological order the code relies on.
* Dynamically typed values flowing through the aggregation stage are embedded
  in the inductive type Py with constructors for strings, floats, ints and the
  Python None object.
* Fallible code (exceptions) is embedded with Option: a none result models a
  raised exception escaping the function.
-/

namespace CwNdfd

/-! Exact rationals standing in for Python floats.  Values are kept normalized
by the smart constructor mkPyRat, so structural equality on PyRat agrees with
numeric equality for every value built by the operations below. -/

structure PyRat where
  num : ℤ
  den : ℕ
deriving DecidableEq, Repr

def mkPyRat (n : ℤ) (d : ℤ) : PyRat :=
  if d = 0 then ⟨0, 0⟩ else
  let n2 : ℤ := if d < 0 then -n else n
  let dn : ℕ := d.natAbs
  let g : ℕ := Nat.gcd n2.natAbs dn
  ⟨n2 / (g : ℤ), dn / g⟩

def PyRat.ofInt (n : ℤ) : PyRat := ⟨n, 1⟩

def PyRat.add (a b : PyRat) : PyRat := mkPyRat (a.num * b.den + b.num * a.den) (a.den * b.den)

def PyRat.sub (a b : PyRat) : PyRat := mkPyRat (a.num * b.den - b.num * a.den) (a.den * b.den)

def PyRat.mul (a b : PyRat) : PyRat := mkPyRat (a.num * b.num) (a.den * b.den)

def PyRat.div (a b : PyRat) : PyRat := mkPyRat (a.num * b.den) (a.den * b.num)

/-- Strict order by cross multiplication (denominators are nonnegative). -/
def PyRat.ltB (a b : PyRat) : Bool := a.num * b.den < b.num * a.den

def PyRat.isZero (a : PyRat) : Bool := a.num = 0

/-- Mathematical floor of the fraction (used to express rounding). -/
def PyRat.floorZ (a : PyRat) : ℤ := a.num.fdiv a.den

/-- Python int() applied to a float truncates toward zero. -/
def PyRat.truncZ (a : PyRat) : ℤ :=
  if a.ltB (PyRat.ofInt 0) then -((PyRat.sub (PyRat.ofInt 0) a).floorZ) else a.floorZ

/-- Python round() on floats rounds half to even. -/
def roundHalfEvenZ (q : PyRat) : ℤ :=
  let f := q.floorZ
  let r := q.sub (PyRat.ofInt f)
  if r.ltB (mkPyRat 1 2) then f
  else if (mkPyRat 1 2).ltB r then f + 1
  else if f % 2 = 0 then f else f + 1

/-- Python round(x, d): round half to even at d decimal places. -/
def pyRoundTo (d : ℕ) (q : PyRat) : PyRat :=
  mkPyRat (roundHalfEvenZ (q.mul (PyRat.ofInt (10 ^ d)))) (10 ^ d)

/-! String helpers.  Python str.split with a one-character separator, and the
lexicographic-by-code-point string order Python uses, both written over the
character list of the string so that they evaluate inside the kernel. -/

def splitOnChar (sep : Char) : List Char → List (List Char)
  | [] => [[]]
  | c :: rest =>
    match splitOnChar sep rest with
    | [] => [[]]
    | h :: t => if c = sep then [] :: h :: t else (c :: h) :: t

/-- Python s.split(sep) for a one-character separator. -/
def pySplit (s : String) (sep : Char) : List String :=
  (splitOnChar sep s.data).map (fun cs => String.mk cs)

def charListLtB : List Char → List Char → Bool
  | [], [] => false
  | [], _ :: _ => true
  | _ :: _, [] => false
  | a :: as, b :: bs =>
    if a.toNat < b.toNat then true
    else if b.toNat < a.toNat then false
    else charListLtB as bs

/-- Python string comparison: lexicographic by code point. -/
def strLtB (a b : String) : Bool := charListLtB a.data b.data

/-! Literal parsing.  Python int(s) and float(s) restricted to the plain
decimal literals the feed carries; on any other string Python raises
ValueError, which is embedded as a none result. -/

def digitsToNat (cs : List Char) : ℕ :=
  cs.foldl (fun a c => 10 * a + (c.toNat - 48)) 0

/-- Python int(s) on an optional sign followed by digits.  Whitespace padding
and underscore separators, which Python also accepts, do not occur in the feed
and are not modelled. -/
def parsePyInt (s : String) : Option ℤ :=
  let core : List Char → Option ℤ := fun cs =>
    if cs ≠ [] ∧ cs.all Char.isDigit then some (digitsToNat cs : ℤ) else Option.none
  match s.data with
  | '-' :: rest => (core rest).map (fun n => -n)
  | '+' :: rest => core rest
  | cs => core cs

/-- Python float(s) on plain decimal literals such as 0.40 or 28 or 5. ;
exponent notation, inf and nan do not occur in the feed and are not
modelled. -/
def parsePyFloat (s : String) : Option PyRat :=
  let core : List Char → Option PyRat := fun cs =>
    let ip := cs.takeWhile (fun c => c ≠ '.')
    match cs.dropWhile (fun c => c ≠ '.') with
    | [] =>
      if ip ≠ [] ∧ ip.all Char.isDigit then some (PyRat.ofInt (digitsToNat ip)) else Option.none
    | _ :: fp =>
      if (ip ≠ [] ∨ fp ≠ []) ∧ ip.all Char.isDigit ∧ fp.all Char.isDigit ∧ fp.all (fun c => c ≠ '.')
      then some (mkPyRat (digitsToNat ip * 10 ^ fp.length + digitsToNat fp) (10 ^ fp.length))
      else Option.none
  match s.data with
  | '-' :: rest => (core rest).map (fun q => (PyRat.ofInt 0).sub q)
  | '+' :: rest => core rest
  | cs => core cs

/-! Embedding of the dynamically typed Python values that flow through the
aggregation stage: raw strings from the XML, floats, ints, and None. -/

inductive Py where
  | S (s : String)
  | F (q : PyRat)
  | I (n : ℤ)
  | N
deriving DecidableEq, Repr

/-- Python truthiness for the values above: nonempty string, nonzero number;
None is falsy. -/
def pyTruthy : Py → Bool
  | Py.S s => s ≠ ""
  | Py.F q => !q.isZero
  | Py.I n => n ≠ 0
  | Py.N => false

def optPyTruthy : Option Py → Bool
  | some p => pyTruthy p
  | Option.none => false

/-- Python float(v) for values reaching that conversion in the code.  For an
unparsable string or for None, Python raises; those arguments are unreachable
on the paths the theorems below describe and are mapped to zero. -/
def pyFloatOf : Py → PyRat
  | Py.S s => (parsePyFloat s).getD (PyRat.ofInt 0)
  | Py.F q => q
  | Py.I n => PyRat.ofInt n
  | Py.N => PyRat.ofInt 0

/-! Document model from dwml.py.  A datetime is embedded by the strftime
projections the assembler reads from it; the raw ISO timestamp strings of the
time layouts are kept verbatim where the code keeps them verbatim. -/

structure DwmlLocation where
  name : Option String
  latitude : Option String
  longitude : Option String
deriving DecidableEq, Repr

/-- Time layout: layout key plus the ordered (start, optional end) timestamp
pairs collected in document order (dwml.py, parse_time_layouts). -/
structure DwmlTimeLayout where
  key : String
  coordinate : Option String
  summarization : Option String
  periods : List (String × Option String)
deriving DecidableEq, Repr

/-- DwmlParameterValue as produced by parse_parameters, with the two datetime
fields kept as the raw timestamp strings of the period. -/
structure DwmlPV where
  value : String
  start : String
  endOpt : Option String
deriving DecidableEq, Repr

/-- Pairing of a raw value list against the referenced layout periods
(dwml.py lines 203-209): Python zip, which stops at the shorter sequence. -/
def parseParameterValues (values : List String) (periods : List (String × Option String)) :
    List DwmlPV :=
  (values.zip periods).map (fun vp => ⟨vp.1, vp.2.1, vp.2.2⟩)

/-- DwmlParser.format_weather (dwml.py lines 217-230): the delimiter-encoded
pseudo-value built from one weather-conditions value element. -/
def formatWeatherEncode (coverage intensity weatherType qualifier : String) : String :=
  "|coverage:" ++ coverage ++ "|intensity:" ++ intensity ++
  "|weather-type:" ++ weatherType ++ "|qualifier:" ++ qualifier

/-- Parameter value as consumed by forecast.py: the raw value string together
with the strftime projections of the start and optional end datetimes.
An XML value element with no text gives the Python value None, which behaves
like the empty string on every path exercised here, and is embedded as "". -/
structure PValue where
  value : String
  startDate : String
  startTime : String
  endDate : Option String
  endTime : Option String
deriving DecidableEq, Repr

/-- DwmlParameter: tag, display name, layout key, value series. -/
structure DwmlParameter where
  tag : String
  name : String
  timeLayoutKey : String
  values : List PValue
deriving DecidableEq, Repr

structure DwmlDoc where
  locations : List DwmlLocation
  timeLayouts : List (String × DwmlTimeLayout)
  parameters : List DwmlParameter

/-- DwmlDoc.parameter (dwml.py line 246): next(p for p in parameters if
p.name == name).  The first match is returned; an exhausted iterator raises
StopIteration, embedded as none. -/
def parameterByName (params : List DwmlParameter) (n : String) : Option DwmlParameter :=
  params.find? (fun p => p.name = n)

/-! Weather phrase decoding, ForecastParser._format_weather (forecast.py
lines 239-282).  The Python body runs under a bare try/except returning the
empty string, so every failed list index is an early empty-string exit. -/

def formatWeatherStr (line : String) : String :=
  match (pySplit line '|').get? 1, (pySplit line '|').get? 2, (pySplit line '|').get? 3 with
  | some ce, some ie, some we =>
    match (pySplit ce ':').get? 1, (pySplit ie ':').get? 1, (pySplit we ':').get? 1 with
    | some coverage, some i0, some weather =>
      let intensity := if i0 = "none" then "" else i0
      if coverage = "likely" then
        intensity ++ " " ++ weather ++ " " ++ coverage
      else if coverage = "chance" ∨ coverage = "slight chance" then
        coverage ++ " of " ++ intensity ++ " " ++ weather
      else if coverage = "definitely" then
        intensity ++ " " ++ weather
      else
        coverage ++ " " ++ intensity ++ " " ++ weather
    | _, _, _ => ""
  | _, _, _ => ""

/-- Token extraction of the same routine, spelled as the claim spells it: the
coverage, intensity and weather-type fields of the pipe-delimited
pseudo-value, or none when any index or split fails. -/
def weatherTokens (line : String) : Option (String × String × String) := do
  let ce ← (pySplit line '|').get? 1
  let ie ← (pySplit line '|').get? 2
  let we ← (pySplit line '|').get? 3
  let c ← (pySplit ce ':').get? 1
  let i ← (pySplit ie ':').get? 1
  let w ← (pySplit we ':').get? 1
  pure (c, i, w)

/-- Phrase composition by coverage category, as the specification states it
(intensity substitution already applied by the caller). -/
def phraseFor (coverage intensity weather : String) : String :=
  if coverage = "likely" then intensity ++ " " ++ weather ++ " " ++ coverage
  else if coverage = "chance" ∨ coverage = "slight chance" then
    coverage ++ " of " ++ intensity ++ " " ++ weather
  else if coverage = "definitely" then intensity ++ " " ++ weather
  else coverage ++ " " ++ intensity ++ " " ++ weather

/-! Most-frequent reduction, ForecastParser._most_frequent (forecast.py lines
359-374).  A Python dict preserves first-encounter insertion order, embedded
here as an association list bumped in place. -/

def bumpCount {α : Type} [DecidableEq α] (counts : List (α × ℕ)) (v : α) : List (α × ℕ) :=
  if counts.any (fun p => p.1 = v) then
    counts.map (fun p => if p.1 = v then (p.1, p.2 + 1) else p)
  else counts ++ [(v, 1)]

def buildCounts {α : Type} [DecidableEq α] (l : List α) : List (α × ℕ) :=
  l.foldl bumpCount []

/-- Scan of the frequency table: val is replaced whenever a count strictly
exceeds the running maximum.  On an empty value list the Python function
raises NameError (val never bound), embedded as none. -/
def pickMax {α : Type} : List (α × ℕ) → ℕ → Option α → Option α
  | [], _, v => v
  | (k, c) :: rest, m, v =>
    if m < c then pickMax rest c (some k) else pickMax rest m v

def mostFrequent {α : Type} [DecidableEq α] (l : List α) : Option α :=
  pickMax (buildCounts l) 0 Option.none

/-- Largest count in a frequency table (0 for an empty table); used to state
which element the scan returns. -/
def maxCounts {α : Type} : List (α × ℕ) → ℕ
  | [] => 0
  | p :: t => max p.2 (maxCounts t)

/-! Formatters and skip predicates of ForecastParser. -/

/-- Numeric view of a Py value for the arithmetic reductions.  The assembler
only configures arithmetic reductions together with numeric coercion, so the
group elements there are always floats; on a string or None Python would
raise TypeError, and those arguments are mapped to zero. -/
def pyArith : Py → PyRat
  | Py.F q => q
  | Py.I n => PyRat.ofInt n
  | Py.S _ => PyRat.ofInt 0
  | Py.N => PyRat.ofInt 0

/-- ForecastParser._format_wind (line 236-237): int(float(knots) * 1.15077945)
for a truthy argument, None otherwise.  The float literal is taken at its
decimal value. -/
def formatWind (p : Py) : Py :=
  if pyTruthy p then Py.I (((pyFloatOf p).mul (mkPyRat 115077945 100000000)).truncZ)
  else Py.N

/-- ForecastParser._format_weather lifted to Py: a non-string argument fails
inside the try block and yields the empty string. -/
def formatWeatherPy (p : Py) : Py :=
  match p with
  | Py.S s => Py.S (formatWeatherStr s)
  | _ => Py.S ""

/-- ForecastParser._symbol_from_link (lines 448-459): the last path component
when the link is truthy and contains a slash, None otherwise. -/
def symbolFromLink (s : String) : Option String :=
  if s = "" then Option.none
  else if s.data.contains '/' then some ((pySplit s '/').getLastD "")
  else Option.none

/-- ForecastParser._format_symbol via _symbol_from_link; a None result stays
the Python None value. -/
def formatSymbolPy (p : Py) : Py :=
  match p with
  | Py.S s =>
    match symbolFromLink s with
    | some r => Py.S r
    | Option.none => Py.N
  | _ => Py.N

/-- ForecastParser._is_night (lines 391-403) on the strftime time-of-day
projection: strictly before 06:00:00 or strictly after 18:00:00. -/
def isNightStr (t : String) : Bool :=
  strLtB t "06:00:00" || strLtB "18:00:00" t

def skipNight (v : PValue) : Bool := isNightStr v.startTime

/-- ForecastParser._skip_different_startend_date: start date and end date
differ.  A value with no end datetime makes Python raise AttributeError; such
values do not occur in the twelve-hour layouts this skipper is used on, and
the embedding counts them as skipped. -/
def skipDifferentStartEnd (v : PValue) : Bool := !(v.endDate = some v.startDate)

def skipSameStartEnd (v : PValue) : Bool := v.endDate = some v.startDate

def skipEmptyValue (v : PValue) : Bool := v.value = ""

/-- ForecastParser._is_night_symbol (lines 435-446). -/
def isNightSymbol (s : String) : Bool :=
  match s.data with
  | [] => false
  | c :: _ => c = 'n'

/-- ForecastParser._skip_night_symbol (lines 418-433). -/
def skipNightSymbol (v : PValue) : Bool :=
  if v.value = "" then false
  else
    match symbolFromLink v.value with
    | Option.none => false
    | some sym => if sym = "" then false else isNightSymbol sym

/-! Aggregation primitive, ForecastParser._aggregate (forecast.py lines
284-351). -/

/-- Configuration record mirroring the keyword arguments of _aggregate. -/
structure AggCfg where
  func : String
  isNumeric : Bool := true
  decimal : ℕ := 0
  skipper : Option (PValue → Bool) := Option.none
  formatter : Option (Py → Py) := Option.none
  minValues : Option ℕ := Option.none

/-- First filter of the indexing loop: drop empty raw values when numeric,
then apply the skip predicate, in that order. -/
def qualifies (cfg : AggCfg) (v : PValue) : Bool :=
  !(cfg.isNumeric && v.value = "") &&
  !(match cfg.skipper with
    | some f => f v
    | Option.none => false)

/-- Conversion applied inside the indexing loop: float coercion when numeric
(the empty string was already dropped), raw string otherwise.  An unparsable
numeric string raises ValueError in Python, embedded as none. -/
def convertValue (cfg : AggCfg) (v : PValue) : Option Py :=
  if cfg.isNumeric then (parsePyFloat v.value).map Py.F else some (Py.S v.value)

/-- Monadic map over Option written as the loop the code runs: the first
failure aborts the whole call. -/
def optionMapList {α β : Type} (f : α → Option β) : List α → Option (List β)
  | [] => some []
  | a :: l =>
    match f a with
    | Option.none => Option.none
    | some b => (optionMapList f l).map (fun bs => b :: bs)

/-- Python sum over the group, left to right from zero. -/
def sumGroup (g : List Py) : PyRat :=
  g.foldl (fun a p => a.add (pyArith p)) (PyRat.ofInt 0)

/-- Python max over a nonempty group; on an empty group Python raises, which
is unreachable behind the nonempty guard of the caller. -/
def maxGroup (g : List Py) : PyRat :=
  match g with
  | [] => PyRat.ofInt 0
  | h :: t => t.foldl (fun a p => if a.ltB (pyArith p) then pyArith p else a) (pyArith h)

def minGroup (g : List Py) : PyRat :=
  match g with
  | [] => PyRat.ofInt 0
  | h :: t => t.foldl (fun a p => if (pyArith p).ltB a then pyArith p else a) (pyArith h)

/-- ForecastParser._first_nonempty (lines 353-357): first value whose str()
form is nonempty; only the empty string has an empty str() form among the
values there, and None is returned when the scan is exhausted. -/
def firstNonempty (g : List Py) : Py :=
  match g.find? (fun p =>
    match p with
    | Py.S s => s ≠ ""
    | _ => true) with
  | some p => p
  | Option.none => Py.N

/-- Dispatch on the function name string (lines 332-340), including the
fallthrough branch that also takes the first element. -/
def reduceGroup (func : String) (g : List Py) : Py :=
  if func = "average" then Py.F ((sumGroup g).div (PyRat.ofInt g.length))
  else if func = "sum" then Py.F (sumGroup g)
  else if func = "max" then Py.F (maxGroup g)
  else if func = "min" then Py.F (minGroup g)
  else if func = "first" then g.headD Py.N
  else if func = "first-nonempty" then firstNonempty g
  else if func = "frequent" then (mostFrequent g).getD Py.N
  else g.headD Py.N

/-- Numeric post-processing (lines 342-344): int() truncation at decimal 0,
round() at d decimals otherwise. -/
def applyRounding (cfg : AggCfg) (v : Py) : Py :=
  if cfg.isNumeric then
    if cfg.decimal = 0 then
      match v with
      | Py.F q => Py.I q.truncZ
      | Py.I n => Py.I n
      | x => x
    else
      match v with
      | Py.F q => Py.F (pyRoundTo cfg.decimal q)
      | x => x
  else v

def applyFormat (cfg : AggCfg) (v : Py) : Py :=
  match cfg.formatter with
  | some f => f v
  | Option.none => v

/-- Aggregated value for one date key: the per-date body of the second loop.
The date group is empty exactly when the date never qualified; a truthy
min_values bound below which the date is dropped comes next; then reduction,
rounding and formatting. -/
def aggregateDate (cfg : AggCfg) (converted : List (String × Py)) (d : String) : Option Py :=
  let g := (converted.filter (fun p => p.1 = d)).map (fun p => p.2)
  if g.isEmpty then Option.none
  else if (match cfg.minValues with
           | some m => decide (0 < m) && decide (g.length < m)
           | Option.none => false) then Option.none
  else some (applyFormat cfg (applyRounding cfg (reduceGroup cfg.func g)))

/-- ForecastParser._aggregate: index the qualifying values by start date and
reduce each date group.  A float conversion failure aborts the whole call. -/
def aggregate (cfg : AggCfg) (values : List PValue) : Option (String → Option Py) :=
  match optionMapList (fun v => (convertValue cfg v).map (fun p => (v.startDate, p)))
      (values.filter (qualifies cfg)) with
  | Option.none => Option.none
  | some converted => some (fun d => aggregateDate cfg converted d)

/-- ForecastParser._single (lines 376-389): two-level date and time mapping
with only the optional formatter applied; on duplicate (date, time) keys the
last value written wins. -/
def single (values : List PValue) (formatter : Option (Py → Py)) :
    String → String → Option Py :=
  fun d t =>
    ((values.filter (fun v => v.startDate = d && v.startTime = t)).getLast?).map
      (fun v =>
        match formatter with
        | some f => f (Py.S v.value)
        | Option.none => Py.S v.value)

/-! Daily-low reconciliation, ForecastParser._daily_low (forecast.py lines
183-223). -/

/-- Map update for the date-keyed dictionary. -/
def mapUpdate (m : String → Option String) (k : String) (v : String) :
    String → Option String :=
  fun x => if x = k then some v else m x

/-- Seeding loop: key each daily minimum by its end date.  A daily value with
no end datetime makes Python raise AttributeError, embedded as none. -/
def dailyLowSeed : (String → Option String) → List PValue → Option (String → Option String)
  | m, [] => some m
  | m, day :: rest =>
    match day.endDate with
    | Option.none => Option.none
    | some e => dailyLowSeed (mapUpdate m e day.value) rest

/-- One membership-guarded comparison of the hourly loop: when the date is a
key, compare as Python ints and replace exactly when strictly lower; an
unparsable int raises ValueError, embedded as none. -/
def lowUpdateAt (m : String → Option String) (d : String) (v : String) :
    Option (String → Option String) :=
  match m d with
  | Option.none => some m
  | some cur => do
    let hv ← parsePyInt v
    let cv ← parsePyInt cur
    pure (if hv < cv then mapUpdate m d v else m)

/-- Body of the hourly loop: the start-date check, then the end-date check
when an end is present. -/
def dailyLowStep (m : String → Option String) (hour : PValue) :
    Option (String → Option String) := do
  let m1 ← lowUpdateAt m hour.startDate hour.value
  match hour.endDate with
  | Option.none => pure m1
  | some e => lowUpdateAt m1 e hour.value

def dailyLowRun : (String → Option String) → List PValue → Option (String → Option String)
  | m, [] => some m
  | m, h :: t =>
    match dailyLowStep m h with
    | Option.none => Option.none
    | some m1 => dailyLowRun m1 t

/-- ForecastParser._daily_low: seed from the daily minima, then sweep the
hourly temperatures. -/
def dailyLow (dailies hourlies : List PValue) : Option (String → Option String) :=
  match dailyLowSeed (fun _ => Option.none) dailies with
  | Option.none => Option.none
  | some m => dailyLowRun m hourlies

/-! Forecast assembly, ForecastParser._daily and ForecastParser._hourly
(forecast.py lines 60-142).  The element lookups and aggregation recipes are
run in source order; any raised lookup or aggregation failure aborts the whole
assembly, which is the behavior the claims are about, so the merge of the
per-field maps into one dictionary is kept as a record of the field maps. -/

structure DailyData where
  high : String → Option Py
  low : String → Option String
  precipDay : String → Option Py
  precipNight : String → Option Py
  rainAmount : String → Option Py
  snowAmount : String → Option Py
  relativeHumidity : String → Option Py
  windGust : String → Option Py
  windSustained : String → Option Py
  weather : String → Option Py
  wsym : String → Option Py

structure HourlyData where
  temp : String → String → Option Py
  precip : String → String → Option Py
  relativeHumidity : String → String → Option Py
  rainAmount : String → String → Option Py
  snowAmount : String → String → Option Py
  windSustained : String → String → Option Py
  windGust : String → String → Option Py
  sky : String → String → Option Py
  weather : String → String → Option Py
  wsym : String → String → Option Py

/-- Recipe for the daily high field: first maxt value per date. -/
def cfgHigh : AggCfg := { func := "first" }

/-- Recipe for precip_day: first pop12 value among the values whose validity
interval stays within one calendar day. -/
def cfgPrecipDay : AggCfg := { func := "first", skipper := some skipDifferentStartEnd }

/-- Recipe for precip_night. -/
def cfgPrecipNight : AggCfg := { func := "first", skipper := some skipSameStartEnd }

/-- Recipe for rain_amount: sum of qpf at two decimals, at least three
samples. -/
def cfgRainAmount : AggCfg :=
  { func := "sum", decimal := 2, skipper := some skipEmptyValue, minValues := some 3 }

/-- Recipe for snow_amount: sum of snow at one decimal, at least three
samples. -/
def cfgSnowAmount : AggCfg :=
  { func := "sum", decimal := 1, skipper := some skipEmptyValue, minValues := some 3 }

/-- Recipe for relative_humidity: integer average. -/
def cfgRelativeHumidity : AggCfg := { func := "average" }

/-- Recipe for wind_gust: maximum converted to mph. -/
def cfgWindGust : AggCfg := { func := "max", formatter := some formatWind }

/-- Recipe for wind_sustained: average converted to mph. -/
def cfgWindSustained : AggCfg := { func := "average", formatter := some formatWind }

/-- Recipe for the daily weather phrase. -/
def cfgWeather : AggCfg :=
  { func := "first-nonempty", isNumeric := false, formatter := some formatWeatherPy,
    skipper := some skipNight }

/-- Recipe for the daily symbol. -/
def cfgWsym : AggCfg :=
  { func := "frequent", isNumeric := false, formatter := some formatSymbolPy,
    skipper := some skipNightSymbol }

/-- First half of ForecastParser._daily, through the snow_amount recipe. -/
def assembleDailyA (doc : DwmlDoc) :
    Option ((String → Option Py) × (String → Option String) × (String → Option Py) ×
      (String → Option Py) × (String → Option Py) × (String → Option Py)) := do
  let maxtP ← parameterByName doc.parameters "Daily Maximum Temperature"
  let high ← aggregate cfgHigh maxtP.values
  let mintP ← parameterByName doc.parameters "Daily Minimum Temperature"
  let tempP ← parameterByName doc.parameters "Temperature"
  let low ← dailyLow mintP.values tempP.values
  let popP ← parameterByName doc.parameters "12 Hourly Probability of Precipitation"
  let precipDay ← aggregate cfgPrecipDay popP.values
  let popP2 ← parameterByName doc.parameters "12 Hourly Probability of Precipitation"
  let precipNight ← aggregate cfgPrecipNight popP2.values
  let qpfP ← parameterByName doc.parameters "Liquid Precipitation Amount"
  let rainAmount ← aggregate cfgRainAmount qpfP.values
  let snowP ← parameterByName doc.parameters "Snow Amount"
  let snowAmount ← aggregate cfgSnowAmount snowP.values
  pure (high, low, precipDay, precipNight, rainAmount, snowAmount)

/-- Second half of ForecastParser._daily, from relative_humidity on. -/
def assembleDailyB (doc : DwmlDoc) :
    Option ((String → Option Py) × (String → Option Py) × (String → Option Py) ×
      (String → Option Py) × (String → Option Py)) := do
  let rhmP ← parameterByName doc.parameters "Relative Humidity"
  let relativeHumidity ← aggregate cfgRelativeHumidity rhmP.values
  let wgustP ← parameterByName doc.parameters "Wind Speed Gust"
  let windGust ← aggregate cfgWindGust wgustP.values
  let wspdP ← parameterByName doc.parameters "Wind Speed"
  let windSustained ← aggregate cfgWindSustained wspdP.values
  let wxP ← parameterByName doc.parameters "Weather Type, Coverage, and Intensity"
  let weather ← aggregate cfgWeather wxP.values
  let symP ← parameterByName doc.parameters "Conditions Icons"
  let wsym ← aggregate cfgWsym symP.values
  pure (relativeHumidity, windGust, windSustained, weather, wsym)

/-- ForecastParser._daily: one lookup plus one recipe per field, in source
order.  The code_map inversion of the codes table yields the display names
looked up above. -/
def assembleDaily (doc : DwmlDoc) : Option DailyData := do
  let a ← assembleDailyA doc
  let b ← assembleDailyB doc
  pure ⟨a.1, a.2.1, a.2.2.1, a.2.2.2.1, a.2.2.2.2.1, a.2.2.2.2.2,
    b.1, b.2.1, b.2.2.1, b.2.2.2.1, b.2.2.2.2⟩

/-- ForecastParser._hourly: the single primitive per element, in source
order. -/
def assembleHourly (doc : DwmlDoc) : Option HourlyData := do
  let tempP ← parameterByName doc.parameters "Temperature"
  let popP ← parameterByName doc.parameters "12 Hourly Probability of Precipitation"
  let rhmP ← parameterByName doc.parameters "Relative Humidity"
  let qpfP ← parameterByName doc.parameters "Liquid Precipitation Amount"
  let snowP ← parameterByName doc.parameters "Snow Amount"
  let wspdP ← parameterByName doc.parameters "Wind Speed"
  let wgustP ← parameterByName doc.parameters "Wind Speed Gust"
  let skyP ← parameterByName doc.parameters "Cloud Cover Amount"
  let wxP ← parameterByName doc.parameters "Weather Type, Coverage, and Intensity"
  let symP ← parameterByName doc.parameters "Conditions Icons"
  pure ⟨single tempP.values Option.none,
    single popP.values Option.none,
    single rhmP.values Option.none,
    single qpfP.values Option.none,
    single snowP.values Option.none,
    single wspdP.values (some formatWind),
    single wgustP.values (some formatWind),
    single skyP.values Option.none,
    single wxP.values (some formatWeatherPy),
    single symP.values (some formatSymbolPy)⟩

/-- ForecastParser.parse up to the cleanup step: daily then hourly. -/
def assembleForecast (doc : DwmlDoc) : Option (DailyData × HourlyData) := do
  let d ← assembleDaily doc
  let h ← assembleHourly doc
  pure (d, h)

/-- Display names the assembly looks up, in first-lookup order. -/
def requiredNames : List String :=
  ["Daily Maximum Temperature", "Daily Minimum Temperature", "Temperature",
   "12 Hourly Probability of Precipitation", "Liquid Precipitation Amount",
   "Snow Amount", "Relative Humidity", "Wind Speed Gust", "Wind Speed",
   "Weather Type, Coverage, and Intensity", "Conditions Icons",
   "Cloud Cover Amount"]

/-! Hourly cleanup pass, ForecastParser._cleanup (forecast.py lines 461-544).
A time slot is the per-time dictionary; only the four keys the pass reads or
writes are modelled, the others are untouched by it.  An absent field is an
absent dictionary key. -/

structure Slot where
  temp : Option Py := Option.none
  precip : Option Py := Option.none
  rain : Option Py := Option.none
  snow : Option Py := Option.none
deriving DecidableEq, Repr

/-- Accumulator variables of the pass: tmpPrecip, averageRain, averageSnow,
each starting as Python None. -/
structure CarryState where
  tmpPrecip : Option Py := Option.none
  averageRain : Option PyRat := Option.none
  averageSnow : Option PyRat := Option.none
deriving DecidableEq, Repr

/-- Python comparison averageRain != 0: true for None and for every nonzero
float. -/
def carryNZ : Option PyRat → Bool
  | Option.none => true
  | some q => !q.isZero

/-- Value written into the slot from the carry accumulator: the None object
or the carried float. -/
def carryPy : Option PyRat → Py
  | Option.none => Py.N
  | some q => Py.F q

/-- Body of the per-time loop (lines 508-538): precipitation carry-forward,
rain halving with carry-over, snow halving with carry-over.  The temp-based
deletion happens after this body and is handled by the caller. -/
def processSlot (st : CarryState) (slot : Slot) : Slot × CarryState :=
  let curTruthy := optPyTruthy slot.precip
  let tmpTruthy := optPyTruthy st.tmpPrecip
  let precip2 := if tmpTruthy && !curTruthy then st.tmpPrecip else slot.precip
  let tmp2 := if curTruthy then slot.precip else st.tmpPrecip
  let rainTruthy := optPyTruthy slot.rain
  let rainHalf := pyRoundTo 2 ((pyFloatOf (slot.rain.getD Py.N)).div (PyRat.ofInt 2))
  let rain2 :=
    if rainTruthy then some (Py.F rainHalf)
    else if carryNZ st.averageRain then some (carryPy st.averageRain)
    else slot.rain
  let avgRain2 := if rainTruthy then some rainHalf else some (PyRat.ofInt 0)
  let snowTruthy := optPyTruthy slot.snow
  let snowHalf := pyRoundTo 2 ((pyFloatOf (slot.snow.getD Py.N)).div (PyRat.ofInt 2))
  let snow2 :=
    if snowTruthy then some (Py.F snowHalf)
    else if carryNZ st.averageSnow then some (carryPy st.averageSnow)
    else slot.snow
  let avgSnow2 := if snowTruthy then some snowHalf else some (PyRat.ofInt 0)
  (⟨slot.temp, precip2, rain2, snow2⟩, ⟨tmp2, avgRain2, avgSnow2⟩)

/-- One date of the pass: process each time slot in list order, then drop the
slot when it has no temp key (lines 540-542). -/
def cleanupSlots : CarryState → List (String × Slot) → List (String × Slot) × CarryState
  | st, [] => ([], st)
  | st, (t, s) :: rest =>
    let ps := processSlot st s
    let pr := cleanupSlots ps.2 rest
    (if ps.1.temp.isSome then (t, ps.1) :: pr.1 else pr.1, pr.2)

/-- Ascending insertion by key, embedding Python sorted() on the unique
dictionary keys. -/
def insertSorted {β : Type} (p : String × β) : List (String × β) → List (String × β)
  | [] => [p]
  | q :: rest => if strLtB p.1 q.1 then p :: q :: rest else q :: insertSorted p rest

def sortByKey {β : Type} (l : List (String × β)) : List (String × β) :=
  l.foldl (fun acc p => insertSorted p acc) []

/-- Date loop of the pass: the carry state threads across date boundaries. -/
def cleanupDates : CarryState → List (String × List (String × Slot)) →
    List (String × List (String × Slot)) × CarryState
  | st, [] => ([], st)
  | st, (d, slots) :: rest =>
    let ps := cleanupSlots st slots
    let pr := cleanupDates ps.2 rest
    ((d, ps.1) :: pr.1, pr.2)

/-- ForecastParser._cleanup restricted to the hourly mapping it mutates: sort
dates ascending, sort times ascending within each date, run the single pass.
A date whose slots are all deleted stays present with an empty time map, as
in the Python dictionary. -/
def cleanupHourly (hourly : List (String × List (String × Slot))) :
    List (String × List (String × Slot)) :=
  (cleanupDates ⟨Option.none, Option.none, Option.none⟩
    (sortByKey (hourly.map (fun p => (p.1, sortByKey p.2))))).1

/-- Latest truthy precip value of a slot sequence, else the incoming carry:
the value the specification calls the most recently seen precip value. -/
def lastCarry : Option Py → List (String × Slot) → Option Py
  | tmp, [] => tmp
  | tmp, (_, s) :: rest => lastCarry (if optPyTruthy s.precip then s.precip else tmp) rest

/-- Number of values that survive the skip and empty-value filters for one
date key; used to state the absence contract of the aggregation primitive. -/
def qualCount (cfg : AggCfg) (values : List PValue) (d : String) : ℕ :=
  ((values.filter (qualifies cfg)).filter (fun v => v.startDate = d)).length

/-- Document separating lookup failure from the other failure modes of the
assembly: every required display name is present, but the single
daily-minimum value carries no end timestamp, which makes the daily-low
seeding raise in Python. -/
def c6Doc : DwmlDoc :=
  { locations := [],
    timeLayouts := [],
    parameters :=
      [⟨"maxt", "Daily Maximum Temperature", "k", []⟩,
       ⟨"mint", "Daily Minimum Temperature", "k",
         [⟨"30", "2020-02-07", "19:00:00", Option.none, Option.none⟩]⟩,
       ⟨"temp", "Temperature", "k", []⟩,
       ⟨"pop12", "12 Hourly Probability of Precipitation", "k", []⟩,
       ⟨"qpf", "Liquid Precipitation Amount", "k", []⟩,
       ⟨"snow", "Snow Amount", "k", []⟩,
       ⟨"rhm", "Relative Humidity", "k", []⟩,
       ⟨"wgust", "Wind Speed Gust", "k", []⟩,
       ⟨"wspd", "Wind Speed", "k", []⟩,
       ⟨"wx", "Weather Type, Coverage, and Intensity", "k", []⟩,
       ⟨"sym", "Conditions Icons", "k", []⟩,
       ⟨"sky", "Cloud Cover Amount", "k", []⟩] }

/-! Helper lemmas. -/

theorem processSlot_temp (st : CarryState) (s : Slot) : ((processSlot st s).1).temp = s.temp := rfl

theorem processSlot_tmpPrecip (st : CarryState) (s : Slot) :
    ((processSlot st s).2).tmpPrecip = if optPyTruthy s.precip then s.precip else st.tmpPrecip := rfl

theorem cleanupSlots_state (st : CarryState) (slots : List (String × Slot)) :
    (cleanupSlots st slots).2.tmpPrecip = lastCarry st.tmpPrecip slots := by
  induction slots generalizing st with
  | nil => rfl
  | cons p rest ih =>
    obtain ⟨t, s⟩ := p
    simp only [cleanupSlots]
    rw [ih, lastCarry, processSlot_tmpPrecip]

theorem cleanupSlots_keys (st : CarryState) (slots : List (String × Slot)) :
    (cleanupSlots st slots).1.map Prod.fst =
      (slots.filter (fun p => p.2.temp.isSome)).map Prod.fst := by
  induction slots generalizing st with
  | nil => rfl
  | cons p rest ih =>
    obtain ⟨t, s⟩ := p
    simp only [cleanupSlots, processSlot_temp]
    by_cases h : s.temp.isSome = true
    · simp [h, List.filter_cons, ih]
    · rw [Bool.not_eq_true] at h
      simp [h, List.filter_cons, ih]

theorem cleanupSlots_all_temp (st : CarryState) (slots : List (String × Slot)) :
    (cleanupSlots st slots).1.all (fun p => p.2.temp.isSome) = true := by
  induction slots generalizing st with
  | nil => rfl
  | cons p rest ih =>
    obtain ⟨t, s⟩ := p
    simp only [cleanupSlots, processSlot_temp]
    by_cases h : s.temp.isSome = true
    · simp only [h, if_true]
      refine List.all_eq_true.mpr ?_
      intro q hq
      rcases List.mem_cons.mp hq with h1 | h2
      · subst h1; simpa [processSlot_temp] using h
      · exact List.all_eq_true.mp (ih (processSlot st s).2) q h2
    · rw [Bool.not_eq_true] at h
      simpa [h] using ih (processSlot st s).2

theorem cleanupDates_all_temp (st : CarryState) (l : List (String × List (String × Slot))) :
    (cleanupDates st l).1.all (fun p => p.2.all (fun q => q.2.temp.isSome)) = true := by
  induction l generalizing st with
  | nil => rfl
  | cons p rest ih =>
    obtain ⟨d, slots⟩ := p
    simp only [cleanupDates]
    refine List.all_eq_true.mpr ?_
    intro q hq
    rcases List.mem_cons.mp hq with h1 | h2
    · subst h1; exact cleanupSlots_all_temp st slots
    · exact List.all_eq_true.mp (ih (cleanupSlots st slots).2) q h2

/-! Claim C1. -/

/-- C1: the claimed invariant, that parsing always yields exactly one
ParameterValue per layout period, fails: the zip stops at the shorter
sequence, so a well-formed document whose parameter carries one raw value
against a two-period layout yields one ParameterValue, not two. -/
theorem c1_counterexample :
    ¬ ((parseParameterValues ["1"]
        [("2020-02-07T07:00:00-05:00", Option.none), ("2020-02-08T07:00:00-05:00", Option.none)]).length
      = [("2020-02-07T07:00:00-05:00", (Option.none : Option String)),
         ("2020-02-08T07:00:00-05:00", Option.none)].length) := by
  decide

/-- C1 (amended): the ParameterValue count of a parsed parameter equals the
minimum of its raw value count and its layout period count, hence equals the
period count exactly on documents supplying at least as many raw values as
periods. -/
theorem c1_value_count (vs : List String) (ps : List (String × Option String)) :
    (parseParameterValues vs ps).length = min vs.length ps.length := by
  simp [parseParameterValues]

/-! Claim C9. -/

/-- C9: after the cleanup pass every remaining hourly slot has a temp field;
a slot lacking temp is removed from its date while all others survive in
order. -/
theorem c9_temp_pruning :
    (∀ (st : CarryState) (slots : List (String × Slot)),
      (cleanupSlots st slots).1.map Prod.fst =
        (slots.filter (fun p => p.2.temp.isSome)).map Prod.fst ∧
      (cleanupSlots st slots).1.all (fun p => p.2.temp.isSome) = true) ∧
    (∀ hourly : List (String × List (String × Slot)),
      (cleanupHourly hourly).all (fun p => p.2.all (fun q => q.2.temp.isSome)) = true) := by
  refine ⟨fun st slots => ⟨cleanupSlots_keys st slots, cleanupSlots_all_temp st slots⟩, ?_⟩
  intro hourly
  exact cleanupDates_all_temp _ _

/-! Claim C10. -/

/-- C10: a slot lacking temp still advances the precip, rain and snow carry
state before being deleted, so values from pruned slots flow into later
surviving slots; concretely the pruned 06:00 slot hands its precip 40 and its
halved rain amount 0.20 to the surviving 09:00 slot. -/
theorem c10_pruned_slot_updates_carry :
    (∀ (st : CarryState) (s : Slot) (t : Option Py),
      (processSlot st { s with temp := t }).2 = (processSlot st s).2) ∧
    (∀ (st : CarryState) (t : String) (s : Slot) (rest : List (String × Slot)),
      s.temp = Option.none →
      cleanupSlots st ((t, s) :: rest) = cleanupSlots (processSlot st s).2 rest) ∧
    (cleanupSlots ⟨Option.none, Option.none, Option.none⟩
        [("06:00:00", { precip := some (Py.S "40"), rain := some (Py.S "0.40") }),
         ("09:00:00", { temp := some (Py.S "29") })] =
      ([("09:00:00",
          { temp := some (Py.S "29"), precip := some (Py.S "40"),
            rain := some (Py.F (mkPyRat 1 5)), snow := Option.none })],
       ⟨some (Py.S "40"), some (PyRat.ofInt 0), some (PyRat.ofInt 0)⟩)) := by
  refine ⟨fun st s t => rfl, fun st t s rest h => ?_, by decide⟩
  simp only [cleanupSlots, processSlot_temp, h, Option.isSome_none, Bool.false_eq_true,
    if_false]

theorem c10_witness :
    cleanupSlots ⟨Option.none, Option.none, Option.none⟩
        [("06:00:00", ({ temp := Option.none, precip := some (Py.S "40") } : Slot))] =
      cleanupSlots (processSlot ⟨Option.none, Option.none, Option.none⟩
        { temp := Option.none, precip := some (Py.S "40") }).2 [] :=
  c10_pruned_slot_updates_carry.2.1 ⟨Option.none, Option.none, Option.none⟩ "06:00:00"
    { temp := Option.none, precip := some (Py.S "40") } [] rfl

/-! Claim C2. -/

/-- C2: in the hourly pass, a slot with a truthy rain_amount gets that amount
halved and rounded to two decimals, and the halved value becomes the rain
carry-over; a slot without one receives the carry-over exactly when the
Python comparison against zero holds, after which the carry-over resets to
zero; snow_amount behaves the same on its own accumulator; concretely 0.40
becomes 0.20 and the following bare slot receives 0.20. -/
theorem c2_rain_snow_halving :
    (∀ (st : CarryState) (s : Slot) (p : Py), s.rain = some p → pyTruthy p = true →
      (processSlot st s).1.rain = some (Py.F (pyRoundTo 2 ((pyFloatOf p).div (PyRat.ofInt 2)))) ∧
      (processSlot st s).2.averageRain = some (pyRoundTo 2 ((pyFloatOf p).div (PyRat.ofInt 2)))) ∧
    (∀ (st : CarryState) (s : Slot) (q : PyRat), optPyTruthy s.rain = false →
      st.averageRain = some q → q.isZero = false →
      (processSlot st s).1.rain = some (Py.F q) ∧
      (processSlot st s).2.averageRain = some (PyRat.ofInt 0)) ∧
    (∀ (st : CarryState) (s : Slot) (q : PyRat), optPyTruthy s.rain = false →
      st.averageRain = some q → q.isZero = true →
      (processSlot st s).1.rain = s.rain ∧
      (processSlot st s).2.averageRain = some (PyRat.ofInt 0)) ∧
    (∀ (st : CarryState) (s : Slot) (p : Py), s.snow = some p → pyTruthy p = true →
      (processSlot st s).1.snow = some (Py.F (pyRoundTo 2 ((pyFloatOf p).div (PyRat.ofInt 2)))) ∧
      (processSlot st s).2.averageSnow = some (pyRoundTo 2 ((pyFloatOf p).div (PyRat.ofInt 2)))) ∧
    (∀ (st : CarryState) (s : Slot) (q : PyRat), optPyTruthy s.snow = false →
      st.averageSnow = some q → q.isZero = false →
      (processSlot st s).1.snow = some (Py.F q) ∧
      (processSlot st s).2.averageSnow = some (PyRat.ofInt 0)) ∧
    (∀ (st : CarryState) (s : Slot) (q : PyRat), optPyTruthy s.snow = false →
      st.averageSnow = some q → q.isZero = true →
      (processSlot st s).1.snow = s.snow ∧
      (processSlot st s).2.averageSnow = some (PyRat.ofInt 0)) ∧
    (cleanupSlots ⟨Option.none, Option.none, Option.none⟩
        [("06:00:00", { temp := some (Py.S "30"), rain := some (Py.S "0.40") }),
         ("09:00:00", { temp := some (Py.S "29") })] =
      ([("06:00:00",
          { temp := some (Py.S "30"), precip := Option.none,
            rain := some (Py.F (mkPyRat 1 5)), snow := some Py.N }),
        ("09:00:00",
          { temp := some (Py.S "29"), precip := Option.none,
            rain := some (Py.F (mkPyRat 1 5)), snow := Option.none })],
       ⟨Option.none, some (PyRat.ofInt 0), some (PyRat.ofInt 0)⟩)) := by
  refine ⟨?_, ?_, ?_, ?_, ?_, ?_, by decide⟩
  · intro st s p hr ht
    constructor <;> simp [processSlot, optPyTruthy, hr, ht]
  · intro st s q hr hc hz
    constructor <;> simp [processSlot, hr, hc, hz, carryNZ, carryPy]
  · intro st s q hr hc hz
    constructor <;> simp [processSlot, hr, hc, hz, carryNZ, carryPy]
  · intro st s p hr ht
    constructor <;> simp [processSlot, optPyTruthy, hr, ht]
  · intro st s q hr hc hz
    constructor <;> simp [processSlot, hr, hc, hz, carryNZ, carryPy]
  · intro st s q hr hc hz
    constructor <;> simp [processSlot, hr, hc, hz, carryNZ, carryPy]

theorem c2_witness :
    ((processSlot ⟨Option.none, Option.none, Option.none⟩
        ({ rain := some (Py.S "0.40") } : Slot)).1.rain =
      some (Py.F (pyRoundTo 2 ((pyFloatOf (Py.S "0.40")).div (PyRat.ofInt 2))))) ∧
    ((processSlot ⟨Option.none, some (mkPyRat 1 5), Option.none⟩
        ({ temp := some (Py.S "29") } : Slot)).1.rain = some (Py.F (mkPyRat 1 5))) :=
  ⟨(c2_rain_snow_halving.1 ⟨Option.none, Option.none, Option.none⟩
      { rain := some (Py.S "0.40") } (Py.S "0.40") rfl (by decide)).1,
   (c2_rain_snow_halving.2.1 ⟨Option.none, some (mkPyRat 1 5), Option.none⟩
      { temp := some (Py.S "29") } (mkPyRat 1 5) (by decide) rfl (by decide)).1⟩

/-! Claim C3. -/

/-- C3: in the hourly pass a slot with a falsy precip value receives the
currently carried precip value when one has been seen, a slot with a truthy
precip value becomes the new carry, the carry is exactly the most recently
seen truthy precip value and is never reset across the pass, and the
06:00 / 09:00 / 12:00 example propagates pop 40 into both later slots, also
across a date boundary. -/
theorem c3_precip_carry_forward :
    (∀ (st : CarryState) (s : Slot), optPyTruthy s.precip = false →
      optPyTruthy st.tmpPrecip = true →
      (processSlot st s).1.precip = st.tmpPrecip ∧
      (processSlot st s).2.tmpPrecip = st.tmpPrecip) ∧
    (∀ (st : CarryState) (s : Slot), optPyTruthy s.precip = true →
      (processSlot st s).1.precip = s.precip ∧
      (processSlot st s).2.tmpPrecip = s.precip) ∧
    (∀ (st : CarryState) (slots : List (String × Slot)),
      (cleanupSlots st slots).2.tmpPrecip = lastCarry st.tmpPrecip slots) ∧
    (cleanupSlots ⟨Option.none, Option.none, Option.none⟩
        [("06:00:00", { temp := some (Py.S "30"), precip := some (Py.S "40") }),
         ("09:00:00", { temp := some (Py.S "29") }),
         ("12:00:00", { temp := some (Py.S "28") })] =
      ([("06:00:00",
          { temp := some (Py.S "30"), precip := some (Py.S "40"),
            rain := some Py.N, snow := some Py.N }),
        ("09:00:00",
          { temp := some (Py.S "29"), precip := some (Py.S "40"),
            rain := Option.none, snow := Option.none }),
        ("12:00:00",
          { temp := some (Py.S "28"), precip := some (Py.S "40"),
            rain := Option.none, snow := Option.none })],
       ⟨some (Py.S "40"), some (PyRat.ofInt 0), some (PyRat.ofInt 0)⟩)) ∧
    (cleanupHourly
        [("2020-02-08",
          [("12:00:00", { temp := some (Py.S "28") }),
           ("09:00:00", { temp := some (Py.S "29") })]),
         ("2020-02-07",
          [("06:00:00", { temp := some (Py.S "30"), precip := some (Py.S "40") })])] =
      [("2020-02-07",
        [("06:00:00",
          { temp := some (Py.S "30"), precip := some (Py.S "40"),
            rain := some Py.N, snow := some Py.N })]),
       ("2020-02-08",
        [("09:00:00",
          { temp := some (Py.S "29"), precip := some (Py.S "40"),
            rain := Option.none, snow := Option.none }),
         ("12:00:00",
          { temp := some (Py.S "28"), precip := some (Py.S "40"),
            rain := Option.none, snow := Option.none })])]) := by
  refine ⟨?_, ?_, cleanupSlots_state, by decide, by decide⟩
  · intro st s hc ht
    constructor <;> simp [processSlot, hc, ht]
  · intro st s hc
    constructor <;> simp [processSlot, hc]

theorem c3_witness :
    ((processSlot ⟨some (Py.S "40"), Option.none, Option.none⟩
        ({ temp := some (Py.S "29") } : Slot)).1.precip = some (Py.S "40")) ∧
    ((processSlot ⟨Option.none, Option.none, Option.none⟩
        ({ precip := some (Py.S "40") } : Slot)).2.tmpPrecip = some (Py.S "40")) :=
  ⟨(c3_precip_carry_forward.1 ⟨some (Py.S "40"), Option.none, Option.none⟩
      { temp := some (Py.S "29") } (by decide) (by decide)).1,
   (c3_precip_carry_forward.2.1 ⟨Option.none, Option.none, Option.none⟩
      { precip := some (Py.S "40") } (by decide)).2⟩

/-! Claim C4. -/

/-- C4: the daily-low computation seeds the date map from the daily-minimum
series keyed by end date, then lets an hourly sample replace the stored value
at its start date, and at its end date when an end timestamp is present,
exactly when the hourly value compares strictly lower as a Python int; in the
concrete example the hourly 28 overrides the daily 30 and the hourly 35 does
not. -/
theorem c4_daily_low :
    (∀ (m : String → Option String) (d v : String), m d = Option.none →
      lowUpdateAt m d v = some m) ∧
    (∀ (m : String → Option String) (d v c : String) (hv cv : ℤ),
      m d = some c → parsePyInt v = some hv → parsePyInt c = some cv →
      lowUpdateAt m d v = some (if hv < cv then mapUpdate m d v else m)) ∧
    (∀ (m : String → Option String) (hour : PValue),
      dailyLowStep m hour =
        (lowUpdateAt m hour.startDate hour.value).bind (fun m1 =>
          match hour.endDate with
          | Option.none => some m1
          | some e => lowUpdateAt m1 e hour.value)) ∧
    (∀ (m : String → Option String) (day : PValue) (rest : List PValue) (e : String),
      day.endDate = some e →
      dailyLowSeed m (day :: rest) = dailyLowSeed (mapUpdate m e day.value) rest) ∧
    (∀ (m : String → Option String) (days : List PValue),
      (∀ day ∈ days, day.endDate.isSome = true) → (dailyLowSeed m days).isSome = true) ∧
    ((dailyLow [⟨"30", "2020-02-07", "19:00:00", some "2020-02-08", some "07:00:00"⟩]
        [⟨"28", "2020-02-08", "05:00:00", Option.none, Option.none⟩]).map
      (fun m => m "2020-02-08") = some (some "28")) ∧
    ((dailyLow [⟨"30", "2020-02-07", "19:00:00", some "2020-02-08", some "07:00:00"⟩]
        [⟨"35", "2020-02-08", "05:00:00", Option.none, Option.none⟩]).map
      (fun m => m "2020-02-08") = some (some "30")) := by
  refine ⟨?_, ?_, ?_, ?_, ?_, by decide, by decide⟩
  · intro m d v h
    simp [lowUpdateAt, h]
  · intro m d v c hv cv hm hv1 hv2
    simp [lowUpdateAt, hm, hv1, hv2]
  · intro m hour
    rfl
  · intro m day rest e h
    simp [dailyLowSeed, h]
  · intro m days h
    induction days generalizing m with
    | nil => rfl
    | cons day rest ih =>
      obtain ⟨e, he⟩ := Option.isSome_iff_exists.mp (h day (List.mem_cons_self day rest))
      rw [dailyLowSeed, he]
      exact ih (mapUpdate m e day.value) (fun q hq => h q (List.mem_cons_of_mem day hq))

theorem c4_witness :
    lowUpdateAt (mapUpdate (fun _ => Option.none) "2020-02-08" "30") "2020-02-08" "28" =
      some (mapUpdate (mapUpdate (fun _ => Option.none) "2020-02-08" "30") "2020-02-08" "28") :=
  c4_daily_low.2.1 (mapUpdate (fun _ => Option.none) "2020-02-08" "30") "2020-02-08" "28" "30"
    28 30 rfl rfl rfl

/-! Claim C8. -/

theorem maxCounts_ge {α : Type} : ∀ (cs : List (α × ℕ)), ∀ p ∈ cs, p.2 ≤ maxCounts cs := by
  intro cs
  induction cs with
  | nil => intro p hp; exact absurd hp (List.not_mem_nil p)
  | cons q t ih =>
    intro p hp
    rw [maxCounts]
    rcases List.mem_cons.mp hp with h | h
    · subst h; exact Nat.le_max_left _ _
    · exact le_trans (ih p h) (Nat.le_max_right _ _)

theorem pickMax_stay {α : Type} : ∀ (cs : List (α × ℕ)) (m : ℕ) (v : Option α),
    (∀ p ∈ cs, p.2 ≤ m) → pickMax cs m v = v := by
  intro cs
  induction cs with
  | nil => intro m v _; rfl
  | cons q t ih =>
    obtain ⟨k, c⟩ := q
    intro m v h
    rw [pickMax]
    have hq := h (k, c) (List.mem_cons_self (k, c) t)
    rw [if_neg (by simp at hq ⊢; omega)]
    exact ih m v (fun p hp => h p (List.mem_cons_of_mem (k, c) hp))

theorem pickMax_char {α : Type} : ∀ (cs : List (α × ℕ)) (m : ℕ) (v : Option α),
    m < maxCounts cs →
    pickMax cs m v = (cs.find? (fun p => p.2 = maxCounts cs)).map Prod.fst := by
  intro cs
  induction cs with
  | nil => intro m v h; simp [maxCounts] at h
  | cons q t ih =>
    obtain ⟨k, c⟩ := q
    intro m v h
    simp only [maxCounts] at h ⊢
    rw [pickMax]
    by_cases h1 : m < c
    · rw [if_pos h1]
      by_cases h2 : maxCounts t ≤ c
      · have hM : max c (maxCounts t) = c := max_eq_left h2
        simp only [hM]
        rw [List.find?_cons_of_pos _ (by simp)]
        simp only [Option.map_some']
        exact pickMax_stay t c (some k) (fun p hp => le_trans (maxCounts_ge t p hp) h2)
      · have h3 : c < maxCounts t := Nat.lt_of_not_le h2
        have hM : max c (maxCounts t) = maxCounts t := max_eq_right (le_of_lt h3)
        simp only [hM]
        rw [List.find?_cons_of_neg _ (by simp; omega)]
        exact ih c (some k) h3
    · have hc : c ≤ m := Nat.le_of_not_lt h1
      rw [if_neg h1]
      have h3 : m < maxCounts t := by
        rcases lt_max_iff.mp h with h4 | h4
        · omega
        · exact h4
      have hM : max c (maxCounts t) = maxCounts t := max_eq_right (by omega)
      simp only [hM]
      rw [List.find?_cons_of_neg _ (by simp; omega)]
      exact ih m v h3

theorem maxCounts_attained {α : Type} : ∀ (cs : List (α × ℕ)), cs ≠ [] →
    ∃ p ∈ cs, p.2 = maxCounts cs := by
  intro cs
  induction cs with
  | nil => intro h; exact absurd rfl h
  | cons q t ih =>
    intro _
    by_cases h2 : maxCounts t ≤ q.2
    · refine ⟨q, List.mem_cons_self q t, ?_⟩
      rw [maxCounts, max_eq_left h2]
    · cases t with
      | nil => rw [maxCounts] at h2; omega
      | cons r u =>
        obtain ⟨p, hp, hpe⟩ := ih (by simp)
        refine ⟨p, List.mem_cons_of_mem q hp, ?_⟩
        rw [maxCounts, max_eq_right (le_of_lt (Nat.lt_of_not_le h2)), hpe]

theorem one_le_maxCounts_bump {α : Type} [DecidableEq α] (cs : List (α × ℕ)) (v : α) :
    1 ≤ maxCounts (bumpCount cs v) := by
  unfold bumpCount
  by_cases h : cs.any (fun p => p.1 = v) = true
  · rw [if_pos h]
    obtain ⟨p, hp, hpv⟩ := List.any_eq_true.mp h
    have hm : (p.1, p.2 + 1) ∈ cs.map (fun p => if p.1 = v then (p.1, p.2 + 1) else p) := by
      refine List.mem_map.mpr ⟨p, hp, ?_⟩
      simp only [of_decide_eq_true hpv, if_pos]
    have := maxCounts_ge _ _ hm
    omega
  · rw [if_neg h]
    have hm : (v, 1) ∈ cs ++ [(v, 1)] := by simp
    have := maxCounts_ge _ _ hm
    omega

theorem one_le_maxCounts_foldl {α : Type} [DecidableEq α] : ∀ (l : List α) (cs : List (α × ℕ)),
    1 ≤ maxCounts cs → 1 ≤ maxCounts (l.foldl bumpCount cs) := by
  intro l
  induction l with
  | nil => intro cs h; exact h
  | cons a t ih => intro cs _; exact ih (bumpCount cs a) (one_le_maxCounts_bump cs a)

theorem one_le_maxCounts_build {α : Type} [DecidableEq α] (l : List α) (h : l ≠ []) :
    1 ≤ maxCounts (buildCounts l) := by
  cases l with
  | nil => exact absurd rfl h
  | cons a t => exact one_le_maxCounts_foldl t (bumpCount [] a) (one_le_maxCounts_bump [] a)

/-- C8: the most-frequent reduction returns the table entry whose count first
reaches the overall maximum in the single left-to-right scan of the frequency
table built in first-encounter order, it returns a value for every nonempty
input, and [A, B, A, B] resolves to A. -/
theorem c8_most_frequent :
    (∀ {α : Type} [DecidableEq α] (l : List α),
      mostFrequent l =
        ((buildCounts l).find? (fun p => p.2 = maxCounts (buildCounts l))).map Prod.fst) ∧
    (∀ {α : Type} [DecidableEq α] (l : List α), l ≠ [] → (mostFrequent l).isSome = true) ∧
    (mostFrequent ["A", "B", "A", "B"] = some "A") := by
  refine ⟨?_, ?_, by decide⟩
  · intro α inst l
    by_cases hl : l = []
    · subst hl; rfl
    · exact pickMax_char (buildCounts l) 0 Option.none (one_le_maxCounts_build l hl)
  · intro α inst l hl
    have hpos := one_le_maxCounts_build l hl
    have hne : buildCounts l ≠ [] := by
      intro he
      rw [he] at hpos
      simp [maxCounts] at hpos
    have hchar := pickMax_char (buildCounts l) 0 Option.none hpos
    rw [mostFrequent, hchar, Option.isSome_map']
    obtain ⟨p, hp, hpe⟩ := maxCounts_attained (buildCounts l) hne
    exact List.find?_isSome.mpr ⟨p, hp, by simp [hpe]⟩

theorem c8_witness : (mostFrequent [(0 : ℕ), 1, 0, 1]).isSome = true :=
  c8_most_frequent.2.1 [0, 1, 0, 1] (by decide)

/-! Claim C5. -/

theorem optionMapList_fst (cfg : AggCfg) : ∀ (qs : List PValue) (l : List (String × Py)),
    optionMapList (fun v => (convertValue cfg v).map (fun p => (v.startDate, p))) qs = some l →
    l.map Prod.fst = qs.map (fun v => v.startDate) := by
  intro qs
  induction qs with
  | nil =>
    intro l h
    simp only [optionMapList, Option.some.injEq] at h
    subst h
    rfl
  | cons v t ih =>
    intro l h
    rw [optionMapList] at h
    cases hc : convertValue cfg v with
    | none => rw [hc] at h; simp at h
    | some b =>
      rw [hc] at h
      simp only [Option.map_some'] at h
      cases ht : optionMapList (fun v => (convertValue cfg v).map (fun p => (v.startDate, p))) t with
      | none => rw [ht] at h; simp at h
      | some bs =>
        rw [ht] at h
        simp only [Option.map_some', Option.some.injEq] at h
        subst h
        simp [ih bs ht]

theorem filter_fst_length : ∀ (l : List (String × Py)) (qs : List PValue),
    l.map Prod.fst = qs.map (fun v => v.startDate) →
    ∀ d, (l.filter (fun p => p.1 = d)).length = (qs.filter (fun v => v.startDate = d)).length := by
  intro l
  induction l with
  | nil =>
    intro qs h d
    cases qs with
    | nil => rfl
    | cons q t => simp at h
  | cons p t ih =>
    intro qs h d
    cases qs with
    | nil => simp at h
    | cons q u =>
      simp only [List.map_cons, List.cons.injEq] at h
      obtain ⟨h1, h2⟩ := h
      simp only [List.filter_cons, h1]
      by_cases hd : q.startDate = d
      · simp [hd, ih u h2 d]
      · simp [hd, ih u h2 d]

theorem minBound_iff (mv : Option ℕ) (n : ℕ) :
    ((match mv with
      | some m => decide (0 < m) && decide (n < m)
      | Option.none => false) = true) ↔ ∃ m, mv = some m ∧ 0 < m ∧ n < m := by
  cases mv <;> simp

/-- C5: the aggregation primitive, when it returns, yields a date map with an
entry exactly for the qualifying dates: a date is absent precisely when no
value for it survived the empty-value and skip filters or when a truthy
minimum-sample bound exceeds the surviving count; in particular with numeric
coercion and every raw value an empty string the result map is total-empty
rather than null-valued. -/
theorem c5_aggregate_absence :
    (∀ (cfg : AggCfg) (values : List PValue) (f : String → Option Py),
      aggregate cfg values = some f → ∀ d,
      (f d = Option.none ↔ (qualCount cfg values d = 0 ∨
        ∃ m, cfg.minValues = some m ∧ 0 < m ∧ qualCount cfg values d < m))) ∧
    (∀ (cfg : AggCfg) (values : List PValue), cfg.isNumeric = true →
      (∀ v ∈ values, v.value = "") →
      aggregate cfg values = some (fun d => aggregateDate cfg [] d) ∧
      ∀ d, aggregateDate cfg ([] : List (String × Py)) d = Option.none) := by
  constructor
  · intro cfg values f h d
    rw [aggregate] at h
    cases hm : optionMapList (fun v => (convertValue cfg v).map (fun p => (v.startDate, p)))
        (values.filter (qualifies cfg)) with
    | none => rw [hm] at h; exact absurd h (by simp)
    | some converted =>
      rw [hm] at h
      have hf : f = fun x => aggregateDate cfg converted x := (Option.some.inj h).symm
      subst hf
      have hlen : ((converted.filter (fun p => p.1 = d)).map (fun p => p.2)).length =
          qualCount cfg values d := by
        rw [List.length_map]
        exact filter_fst_length converted _ (optionMapList_fst cfg _ converted hm) d
      simp only [aggregateDate]
      split_ifs with h1 h2
      · constructor
        · intro _
          left
          rw [← hlen, List.length_eq_zero]
          exact List.isEmpty_iff.mp h1
        · intro _; rfl
      · constructor
        · intro _
          right
          rw [← hlen]
          exact (minBound_iff cfg.minValues _).mp h2
        · intro _; rfl
      · constructor
        · intro hc; exact absurd hc (by simp)
        · intro hor
          exfalso
          rcases hor with h0 | hex
          · rw [← hlen, List.length_eq_zero] at h0
            exact h1 (List.isEmpty_iff.mpr h0)
          · exact h2 ((minBound_iff _ _).mpr (by rw [hlen]; exact hex))
  · intro cfg values hnum hempty
    have hq : values.filter (qualifies cfg) = [] := by
      rw [List.filter_eq_nil_iff]
      intro v hv
      simp [qualifies, hnum, hempty v hv]
    constructor
    · rw [aggregate, hq]
      rfl
    · intro d; rfl

theorem c5_witness :
    ((fun d => aggregateDate cfgHigh ([] : List (String × Py)) d) "2020-02-07" = Option.none) ∧
    (aggregate cfgHigh [⟨"", "2020-02-07", "01:00:00", Option.none, Option.none⟩] =
      some (fun d => aggregateDate cfgHigh [] d)) :=
  ⟨(c5_aggregate_absence.1 cfgHigh [⟨"", "2020-02-07", "01:00:00", Option.none, Option.none⟩]
      (fun d => aggregateDate cfgHigh [] d) rfl "2020-02-07").mpr (Or.inl (by decide)),
   (c5_aggregate_absence.2 cfgHigh [⟨"", "2020-02-07", "01:00:00", Option.none, Option.none⟩]
      rfl (by decide)).1⟩

/-! Claim C6. -/

/-- C6: the claimed equivalence, that forecast assembly fails exactly when
some required element name is absent, is refuted: in c6Doc every required
name is present, yet the assembly fails, because the daily-minimum value
lacks an end timestamp and the daily-low seeding raises. -/
theorem c6_counterexample :
    (requiredNames.all (fun n => (parameterByName c6Doc.parameters n).isSome)) = true ∧
    (assembleForecast c6Doc).isNone = true := by
  constructor
  · decide
  · rfl

/-- C6 (amended): parameter lookup returns the first parameter whose name
matches and reports a not-found failure when none matches; a missing required
element aborts the whole forecast assembly, so a partial feed yields no
forecast at all.  Absence of a required name is sufficient for the abort but
not necessary. -/
theorem c6_lookup_and_abort :
    (∀ (pre post : List DwmlParameter) (p : DwmlParameter) (n : String),
      p.name = n → (∀ q ∈ pre, q.name ≠ n) →
      parameterByName (pre ++ p :: post) n = some p) ∧
    (∀ (params : List DwmlParameter) (n : String),
      parameterByName params n = Option.none ↔ ∀ p ∈ params, p.name ≠ n) ∧
    (∀ (doc : DwmlDoc) (x : DailyData × HourlyData), assembleForecast doc = some x →
      ∀ n ∈ requiredNames, (parameterByName doc.parameters n).isSome = true) := by
  refine ⟨?_, ?_, ?_⟩
  · intro pre
    induction pre with
    | nil =>
      intro post p n h1 _
      simp only [List.nil_append, parameterByName]
      exact List.find?_cons_of_pos _ (by simp [h1])
    | cons q pre ih =>
      intro post p n h1 h2
      simp only [List.cons_append, parameterByName]
      rw [List.find?_cons_of_neg _ (by simp [h2 q (List.mem_cons_self q pre)])]
      exact ih post p n h1 (fun r hr => h2 r (List.mem_cons_of_mem q hr))
  · intro params n
    simp [parameterByName, List.find?_eq_none]
  · intro doc x h n hn
    simp only [assembleForecast, bind, Option.bind_eq_some, Option.pure_def,
      Option.some.injEq] at h
    obtain ⟨dl, hdl, hl, hhl, -⟩ := h
    simp only [assembleDaily, bind, Option.bind_eq_some, Option.pure_def,
      Option.some.injEq] at hdl
    obtain ⟨a, hA, b, hB, -⟩ := hdl
    simp only [assembleDailyA, bind, Option.bind_eq_some, Option.pure_def,
      Option.some.injEq] at hA
    obtain ⟨maxtP, hn1, _, _, mintP, hn2, tempP, hn3, _, _, popP, hn4, _, _, popP2, hn4b,
      _, _, qpfP, hn5, _, _, snowP, hn6, _, _, -⟩ := hA
    simp only [assembleDailyB, bind, Option.bind_eq_some, Option.pure_def,
      Option.some.injEq] at hB
    obtain ⟨rhmP, hn7, _, _, wgustP, hn8, _, _, wspdP, hn9, _, _, wxP, hn10, _, _,
      symP, hn11, _, _, -⟩ := hB
    simp only [assembleHourly, bind, Option.bind_eq_some, Option.pure_def,
      Option.some.injEq] at hhl
    obtain ⟨_, -, _, -, _, -, _, -, _, -, _, -, _, -, skyP, hn12, _, -, _, -, -⟩ := hhl
    simp only [requiredNames, List.mem_cons, List.not_mem_nil, or_false] at hn
    rcases hn with rfl | rfl | rfl | rfl | rfl | rfl | rfl | rfl | rfl | rfl | rfl | rfl
    · rw [hn1]; rfl
    · rw [hn2]; rfl
    · rw [hn3]; rfl
    · rw [hn4]; rfl
    · rw [hn5]; rfl
    · rw [hn6]; rfl
    · rw [hn7]; rfl
    · rw [hn8]; rfl
    · rw [hn9]; rfl
    · rw [hn10]; rfl
    · rw [hn11]; rfl
    · rw [hn12]; rfl

theorem c6_witness :
    parameterByName
      [⟨"maxt", "Daily Maximum Temperature", "k", []⟩,
       ⟨"temp", "Temperature", "k", []⟩] "Temperature" =
      some ⟨"temp", "Temperature", "k", []⟩ :=
  c6_lookup_and_abort.1 [⟨"maxt", "Daily Maximum Temperature", "k", []⟩] []
    ⟨"temp", "Temperature", "k", []⟩ "Temperature" rfl (by decide)

/-! Claim C7. -/

theorem formatWeather_cases (line : String) :
    formatWeatherStr line =
      match weatherTokens line with
      | some (c, i, w) => phraseFor c (if i = "none" then "" else i) w
      | Option.none => "" := by
  cases h1 : (pySplit line '|')[1]? with
  | none => simp [formatWeatherStr, weatherTokens, h1]
  | some ce =>
    cases h2 : (pySplit line '|')[2]? with
    | none => simp [formatWeatherStr, weatherTokens, h1, h2]
    | some ie =>
      cases h3 : (pySplit line '|')[3]? with
      | none => simp [formatWeatherStr, weatherTokens, h1, h2, h3]
      | some we =>
        cases h4 : (pySplit ce ':')[1]? with
        | none => simp [formatWeatherStr, weatherTokens, h1, h2, h3, h4]
        | some c =>
          cases h5 : (pySplit ie ':')[1]? with
          | none => simp [formatWeatherStr, weatherTokens, h1, h2, h3, h4, h5]
          | some i =>
            cases h6 : (pySplit we ':')[1]? with
            | none => simp [formatWeatherStr, weatherTokens, h1, h2, h3, h4, h5, h6]
            | some w =>
              simp [formatWeatherStr, weatherTokens, h1, h2, h3, h4, h5, h6, phraseFor]

/-- C7: weather phrase decoding is total over strings: when the pipe-delimited
pseudo-value parses, the phrase follows the coverage category with an
intensity of none replaced by the empty string, and any input whose fields
cannot be extracted yields the empty string instead of an error; the claim
examples evaluate accordingly, including the preserved empty intensity
segment. -/
theorem c7_weather_phrase :
    (∀ (line c i w : String), weatherTokens line = some (c, i, w) →
      formatWeatherStr line = phraseFor c (if i = "none" then "" else i) w) ∧
    (∀ line : String, weatherTokens line = Option.none → formatWeatherStr line = "") ∧
    (formatWeatherStr "|coverage:chance|intensity:light|weather-type:rain|qualifier:none" =
      "chance of light rain") ∧
    (formatWeatherStr "|coverage:likely|intensity:none|weather-type:snow|qualifier:none" =
      " snow likely") ∧
    (formatWeatherStr "" = "") ∧
    (formatWeatherStr "no delimiters at all" = "") := by
  refine ⟨?_, ?_, by decide, by decide, by decide, by decide⟩
  · intro line c i w h
    rw [formatWeather_cases line, h]
  · intro line h
    rw [formatWeather_cases line, h]

theorem c7_witness :
    formatWeatherStr "|coverage:definitely|intensity:light|weather-type:rain|qualifier:none" =
      phraseFor "definitely" (if "light" = "none" then "" else "light") "rain" :=
  c7_weather_phrase.1 "|coverage:definitely|intensity:light|weather-type:rain|qualifier:none"
    "definitely" "light" "rain" (by decide)

end CwNdfd
